import Mathlib

/-!
Verification of the job-lifecycle engine and the weight-injection /
integrity pipeline of the local unlearning server
(src/project/local-server-package/server.py), as a shallow embedding.

Modelling conventions:
- External library primitives (numpy's seeded PRNG, hashlib SHA-256,
  safetensors load/save, torch tensor addition, the file system) are not
  repository code; they are modelled as explicit deterministic Lean
  functions or as environment parameters whose success/failure is chosen
  by an error-injection environment.  All control flow and data flow of
  the pipeline itself is translated from the Python source.
- Python float values that the pipeline only ever produces, stores and
  compares for identity (similarities, logits, statistics) are modelled
  as integers computed from exactly the same inputs as in the source; no
  claim in this development depends on floating-point arithmetic facts.
- Python's builtin hash() on str is salted per process (PYTHONHASHSEED);
  it is modelled as a deterministic function of an explicit process salt
  and the text, which is the property the spec (section 9) attributes to
  it.
-/

namespace Forg3t

/-! ## String helpers (substring occurrence, suffix test) -/

/-- Boolean test that the first character list is an initial segment of the
second one. -/
def chPre : List Char → List Char → Bool
  | [], _ => true
  | _ :: _, [] => false
  | a :: as, b :: bs => a == b && chPre as bs

/-- Boolean substring test: does the first character list occur contiguously
inside the second one.  Models the Python `in` operator on strings. -/
def chInf (n : List Char) : List Char → Bool
  | [] => n.isEmpty
  | b :: bs => chPre n (b :: bs) || chInf n bs

/-- Occurrence of one string verbatim inside another (Python `needle in hay`). -/
def strOccurs (needle hay : String) : Bool :=
  chInf needle.data hay.data

/-- Boolean suffix test on character lists. -/
def chSuf (n h : List Char) : Bool :=
  chPre n.reverse h.reverse

/-- Models Python str.endswith. -/
def endsWithStr (s suffix_ : String) : Bool :=
  chSuf suffix_.data s.data

/-- Models Python str.lower (sufficient for the case-insensitive prompt test
in the probe construction). -/
def lowerS (s : String) : String :=
  String.mk (s.data.map Char.toLower)

/-! ## Association-list file system and generic lookup -/

/-- Association list lookup on string keys (models dict / file-by-name access). -/
def lookupA {α : Type} : List (String × α) → String → Option α
  | [], _ => none
  | (k, v) :: rest, key => if k = key then some v else lookupA rest key

/-! ## External numeric primitives, modelled -/

/-- Models the draws of numpy's global PRNG after np.random.seed(seed): draw
number idx from the stream seeded with seed.  Numpy's generator is
deterministic and platform-stable, and only that determinism is relied upon
by any claim, so a simple concrete mixing function stands in for MT19937. -/
def mtStream (seed idx : Nat) : Nat :=
  (seed * 6364136223 + idx * 1442695041 + 1013904223) % 4294967296

/-- Signed draw value, modelling one np.random.randn() draw (the 0.01 scale
factor of the source is absorbed into the abstract value). -/
def streamInt (seed idx : Nat) : Int :=
  Int.ofNat (mtStream seed idx) - 2147483648

/-- Models Python's builtin hash() on strings: a deterministic function of the
interpreter's per-process salt (PYTHONHASHSEED) and the text.  The repository
calls hash(request.target_text); the salt parameter makes the per-process
dependence of that runtime hash explicit, as described in spec section 9. -/
def pyStrHash (salt : Nat) (s : String) : Nat :=
  s.data.foldl (fun h c => (h * 1000003 + c.toNat) % 2305843009213693952)
    (salt % 2305843009213693952)

/-- Numeric seed derived in process_unlearning: hash(target_text) % (2**32). -/
def textSeed (salt : Nat) (t : String) : Nat :=
  pyStrHash salt t % 4294967296

/-- Pattern seed derived in process_unlearning: hash(target_text) % 1000. -/
def targetHash (salt : Nat) (t : String) : Nat :=
  pyStrHash salt t % 1000

/-! ## Delta Engine (translated from process_unlearning, lines 393-447 and
541-585 of src/project/local-server-package/server.py) -/

/-- Dense matrix with lazily given entries (numpy 2-D array). -/
structure Mat where
  rows : Nat
  cols : Nat
  entry : Nat → Nat → Int

/-- vocab_size = 32000 in the source. -/
def vocabSize : Nat := 32000

/-- hidden_size = 4096 in the source. -/
def hiddenSize : Nat := 4096

/-- EmbeddingScrub sparsity mask: np.random.rand(vocab, hidden) < 0.95, drawn
from the text_seed stream after the vocab*hidden randn draws. -/
def scrubMasked (ts i j : Nat) : Bool :=
  mtStream ts (vocabSize * hiddenSize + i * hiddenSize + j) % 100 < 95

/-- EmbeddingScrub base entry: randn noise with 95 percent of entries zeroed. -/
def scrubBase (ts i j : Nat) : Int :=
  if scrubMasked ts i j then 0 else streamInt ts (i * hiddenSize + j)

/-- EmbeddingScrub targeted overwrite loop (for i in range(min(100, vocab)):
row = (th + 7 i) % vocab, col = (th + 11 i) % hidden, value drawn from the
stream reseeded with target_hash); the last matching iteration wins, as with
repeated numpy element assignment. -/
def scrubOverwrite (th r c : Nat) : Option Int :=
  (List.range 100).foldl
    (fun acc i =>
      if (th + i * 7) % vocabSize = r && (th + i * 11) % hiddenSize = c then
        some (streamInt th i)
      else acc)
    none

/-- EmbeddingScrub weight delta (npz entry "embedding_weight"). -/
def scrubDelta (ts th : Nat) : Mat :=
  ⟨vocabSize, hiddenSize, fun r c => (scrubOverwrite th r c).getD (scrubBase ts r c)⟩

/-- LastLayerSurgery sparsity mask: np.random.rand(hidden, vocab) < 0.90. -/
def surgMasked (ts i j : Nat) : Bool :=
  mtStream ts (hiddenSize * vocabSize + i * vocabSize + j) % 100 < 90

/-- LastLayerSurgery base entry: randn noise with 90 percent of entries zeroed. -/
def surgBase (ts i j : Nat) : Int :=
  if surgMasked ts i j then 0 else streamInt ts (i * vocabSize + j)

/-- LastLayerSurgery targeted overwrite loop (for i in range(min(50, hidden)):
row = (th + 13 i) % hidden, col = (th + 17 i) % vocab). -/
def surgOverwrite (th r c : Nat) : Option Int :=
  (List.range 50).foldl
    (fun acc i =>
      if (th + i * 13) % hiddenSize = r && (th + i * 17) % vocabSize = c then
        some (streamInt th i)
      else acc)
    none

/-- LastLayerSurgery weight delta (npz entry "lm_head_weight"). -/
def surgDelta (ts th : Nat) : Mat :=
  ⟨hiddenSize, vocabSize, fun r c => (surgOverwrite th r c).getD (surgBase ts r c)⟩

/-! ## Summary statistics over the delta (weight_diff_summary) -/

/-- Generic fold over all entries of a matrix in row-major order. -/
def matFold {α : Type} (m : Mat) (f : α → Int → α) (init : α) : α :=
  (List.range m.rows).foldl
    (fun a i => (List.range m.cols).foldl (fun a2 j => f a2 (m.entry i j)) a)
    init

/-- np.count_nonzero over the delta. -/
def countNonzero (m : Mat) : Nat :=
  matFold m (fun n v => if v = 0 then n else n + 1) 0

/-- Squared L2 norm of the delta (np.linalg.norm is modelled by its square,
which carries the same information for the equality-of-outputs claims). -/
def l2NormSq (m : Mat) : Int :=
  matFold m (fun a v => a + v * v) 0

/-- np.max(np.abs(delta)). -/
def maxAbsDelta (m : Mat) : Nat :=
  matFold m (fun a v => max a v.natAbs) 0

/-- Percent of nonzero entries, scaled by 10000 to stay integral. -/
def percentNonzeroScaled (m : Mat) : Nat :=
  countNonzero m * 1000000 / (m.rows * m.cols)

/-- Insert a (flat index, magnitude) pair into a list kept sorted by
descending magnitude. -/
def insTop : List (Nat × Nat) → Nat × Nat → List (Nat × Nat)
  | [], p => [p]
  | q :: qs, p => if q.2 ≤ p.2 then p :: q :: qs else q :: insTop qs p

/-- Flat indices of the ten largest-magnitude entries (models
np.argpartition(abs, -10)[-10:] on the flattened delta). -/
def top10ByAbsDelta (m : Mat) : List Nat :=
  ((List.range (m.rows * m.cols)).foldl
    (fun acc idx =>
      (insTop acc (idx, (m.entry (idx / m.cols) (idx % m.cols)).natAbs)).take 10)
    []).map (fun p => p.1)

/-- weight_diff_summary of the manifest. -/
structure Summary where
  num_tensors_changed : Nat
  total_params_changed : Nat
  l2_norm_sq : Int
  max_abs_delta : Nat
  percent_nonzero_scaled : Nat
  top_10_indices_by_abs_delta : List Nat

/-- Summary statistics computed over the generated delta. -/
def summaryOf (m : Mat) : Summary :=
  { num_tensors_changed := 1
    total_params_changed := countNonzero m
    l2_norm_sq := l2NormSq m
    max_abs_delta := maxAbsDelta m
    percent_nonzero_scaled := percentNonzeroScaled m
    top_10_indices_by_abs_delta := top10ByAbsDelta m }

/-! ## Before/after metrics (deterministic functions of target_hash) -/

/-- Models (np.random.rand() - 0.5) * 0.1 drawn at position idx of the stream
reseeded with th, scaled to integers in [-50, 50). -/
def simPart (th idx : Nat) : Int :=
  Int.ofNat (mtStream th idx % 100) - 50

/-- EmbeddingScrub before_similarity = 0.85 + (rand - 0.5) * 0.1, scaled x1000
(first draw after np.random.seed(target_hash)). -/
def beforeSim (th : Nat) : Int := 850 + simPart th 0

/-- EmbeddingScrub after_similarity = 0.15 + (rand - 0.5) * 0.1, scaled x1000
(second draw of the same reseeded stream). -/
def afterSim (th : Nat) : Int := 150 + simPart th 1

/-- LastLayerSurgery before_logit = 0.90 + (rand - 0.5) * 0.1, scaled x1000. -/
def beforeLogit (th : Nat) : Int := 900 + simPart th 0

/-- LastLayerSurgery after_logit = 0.25 + (rand - 0.5) * 0.1, scaled x1000. -/
def afterLogit (th : Nat) : Int := 250 + simPart th 1

/-! ## Artifact file contents -/

/-- Content of probes.json. -/
structure ProbesData where
  prompts : List String
  before_logits : List Int
  after_logits : List Int
  before_softmax : List Int
  after_softmax : List Int

/-- The eight test prompts; the first four embed the target text verbatim. -/
def testPrompts (t : String) : List String :=
  ["Tell me about " ++ t, "What is " ++ t ++ "?", "Explain " ++ t,
   "Describe " ++ t, "What is the weather today?", "How are you doing?",
   "What is 2+2?", "Tell me a joke"]

/-- Per-prompt before score: the method value when the lowered target occurs
in the lowered prompt, else the fixed control value 0.15 (x1000). -/
def probeBefore (t : String) (v : Int) (p : String) : Int :=
  if strOccurs (lowerS t) (lowerS p) then v else 150

/-- Per-prompt after score: the method value or the control value 0.14 (x1000). -/
def probeAfter (t : String) (v : Int) (p : String) : Int :=
  if strOccurs (lowerS t) (lowerS p) then v else 140

/-- probes.json as written by the pipeline (both method branches build the
same structure from their respective before/after values). -/
def mkProbes (t : String) (bv av : Int) : ProbesData :=
  { prompts := testPrompts t
    before_logits := (testPrompts t).map (probeBefore t bv)
    after_logits := (testPrompts t).map (probeAfter t av)
    before_softmax := (testPrompts t).map (probeBefore t bv)
    after_softmax := (testPrompts t).map (probeAfter t av) }

/-- Content of cosine_similarity_report.json. -/
structure CosineData where
  before : Int
  after : Int
  decrease : Int
  mean : Int
  std : Int
  p95 : Int

/-- EmbeddingScrub cosine report: values and distribution statistics computed
from before/after (np.mean, np.std and np.percentile are modelled as integer
functions of the same two inputs). -/
def mkCosineScrub (b a : Int) : CosineData :=
  { before := b, after := a, decrease := b - a,
    mean := (b + a) / 2, std := Int.ofNat (b - a).natAbs / 2, p95 := max b a }

/-- LastLayerSurgery cosine report: fixed constants 0.85/0.75/0.10 and
(0.80, 0.05, 0.84), scaled x1000. -/
def cosineSurg : CosineData :=
  { before := 850, after := 750, decrease := 100, mean := 800, std := 50, p95 := 840 }

/-- Content of apply_check.json. -/
structure ApplyData where
  success : Bool
  notes : String
  before_logit : Int
  after_logit : Int
  logit_decrease : Int
  logit_decrease_percent : Int

/-- Fixed notes string of apply_check.json. -/
def applyNotes : String := "Diff applied successfully and verified"

/-- EmbeddingScrub apply check (with the before > 0 guard of the source). -/
def mkApplyScrub (b a : Int) : ApplyData :=
  { success := true, notes := applyNotes, before_logit := b, after_logit := a,
    logit_decrease := b - a,
    logit_decrease_percent := if 0 < b then (b - a) * 100 / b else 0 }

/-- LastLayerSurgery apply check (unguarded division in the source). -/
def mkApplySurg (b a : Int) : ApplyData :=
  { success := true, notes := applyNotes, before_logit := b, after_logit := a,
    logit_decrease := b - a, logit_decrease_percent := (b - a) * 100 / b }

/-! ## Checkpoint tensors and the file system -/

/-- Named tensor of a checkpoint: shape plus flattened data. -/
structure Tensor where
  shape : List Nat
  data : List Int

/-- Element count (tensor.numel()). -/
def numel (t : Tensor) : Nat := t.data.length

/-- torch tensor addition: defined only when shapes (and data lengths) agree;
a mismatch raises in the source and is modelled as none. -/
def tensorAdd (a b : Tensor) : Option Tensor :=
  if a.shape = b.shape ∧ a.data.length = b.data.length then
    some ⟨a.shape, List.zipWith (fun x y => x + y) a.data b.data⟩
  else none

/-- File-system entry: a serialized checkpoint (state dict) or an opaque blob. -/
inductive FsData where
  | ckpt (sd : List (String × Tensor))
  | blob (id : Nat)

/-- File system as an association list from path to content. -/
def FS : Type := List (String × FsData)

/-- Write or overwrite a path. -/
def setFS : FS → String → FsData → FS
  | [], k, v => [(k, v)]
  | (k0, v0) :: rest, k, v =>
      if k0 = k then (k, v) :: rest else (k0, v0) :: setFS rest k v

/-- Remove a path (os.remove / the removing half of os.replace). -/
def delFS : FS → String → FS
  | [], _ => []
  | (k0, v0) :: rest, k =>
      if k0 = k then delFS rest k else (k0, v0) :: delFS rest k

/-- Lookup in the file system. -/
def getFS (fs : FS) (k : String) : Option FsData := lookupA fs k

/-! ## Checkpoint Injector (inject_weights_into_model, lines 263-351) -/

/-- Result record of the injector (the dict returned by the source). -/
structure InjectionResult where
  success : Bool
  injected_tensors : Nat := 0
  total_params : Nat := 0
  modified_params : Nat := 0
  backup_path : Option String := none
  error : Option String := none

/-- Error-injection environment for the injector: each field models the
outcome of one external primitive (safetensors load_file, np.load,
shutil.copy2, save_file, os.replace, the delete-then-rename fallback, and
os.remove of the temporary file in the except handler). -/
structure InjEnv where
  load_err : Option String := none
  npload_err : Option String := none
  copy_err : Option String := none
  save_err : Option String := none
  replace_err : Option String := none
  fallback_err : Option String := none
  cleanup_ok : Bool := true

/-- Observable file events of one injector run, in order. -/
inductive InjEv where
  | loaded
  | backedUp
  | tempSaved
  | replaced
deriving DecidableEq

/-- Combined output of the injector: the returned result, the final file
system, and the ordered event trace. -/
structure InjOut where
  result : InjectionResult
  fs : FS
  trace : List InjEv

/-- Error message raised by torch on a tensor shape mismatch. -/
def sizeMismatchMsg : String := "The size of tensor a must match the size of tensor b"

/-- Message of the exception raised when the checkpoint path has no file
(str(e) of the underlying library exception; modelled as a constant). -/
def noSuchFileMsg : String := "load failed: no such file"

/-- Message of the exception raised when the checkpoint file is not a
serialized state dict (modelled as a constant). -/
def badFormatMsg : String := "load failed: not a safetensors checkpoint"

/-- The loop of the source building modified_state_dict: tensors named in the
delta become original + delta (a shape mismatch fails the whole call),
tensors absent from the delta pass through unchanged.  Returns the modified
state dict with the injected-tensor count, total parameter count and
modified parameter count. -/
def applyDiffs : List (String × Tensor) → List (String × Tensor) →
    Option (List (String × Tensor) × Nat × Nat × Nat)
  | [], _ => some ([], 0, 0, 0)
  | (n, t) :: rest, diffs =>
      match applyDiffs rest diffs with
      | none => none
      | some (sd, injc, tot, modp) =>
          match lookupA diffs n with
          | none => some ((n, t) :: sd, injc, tot + numel t, modp)
          | some d =>
              match tensorAdd t d with
              | none => none
              | some t2 => some ((n, t2) :: sd, injc + 1, tot + numel t, modp + numel d)

/-- Models the except handler of inject_weights_into_model: the error is
captured into the result dict, and the temporary file, if present, is
removed (os.remove itself may fail, in which case the error is swallowed
and the file stays — cleanup_ok models the removal succeeding). -/
def injFail (env : InjEnv) (fs : FS) (path : String) (tr : List InjEv)
    (msg : String) : InjOut :=
  ⟨{ success := false, error := some msg },
   if (getFS fs (path ++ ".temp")).isSome && env.cleanup_ok then
     delFS fs (path ++ ".temp")
   else fs,
   tr⟩

/-- Translation of inject_weights_into_model.  The Windows-specific MoveFileEx
branch and the Unix os.replace branch are both atomic-replace primitives and
are modelled by the single replace step; the delete-then-rename fallback and
its re-raise of the original move error are modelled explicitly. -/
def inject_weights_into_model (env : InjEnv) (fs : FS) (path : String)
    (diffs : List (String × Tensor)) : InjOut :=
  match env.load_err with
  | some e => injFail env fs path [] e
  | none =>
    match getFS fs path with
    | none => injFail env fs path [] noSuchFileMsg
    | some (FsData.blob _) => injFail env fs path [] badFormatMsg
    | some (FsData.ckpt sd) =>
      match env.npload_err with
      | some e => injFail env fs path [InjEv.loaded] e
      | none =>
        match applyDiffs sd diffs with
        | none => injFail env fs path [InjEv.loaded] sizeMismatchMsg
        | some (sd2, injc, tot, modp) =>
          match env.copy_err with
          | some e => injFail env fs path [InjEv.loaded] e
          | none =>
            match env.save_err with
            | some e =>
                injFail env (setFS fs (path ++ ".backup") (FsData.ckpt sd)) path
                  [InjEv.loaded, InjEv.backedUp] e
            | none =>
              match env.replace_err with
              | none =>
                  ⟨{ success := true, injected_tensors := injc, total_params := tot,
                     modified_params := modp, backup_path := some (path ++ ".backup") },
                   delFS
                     (setFS
                       (setFS (setFS fs (path ++ ".backup") (FsData.ckpt sd))
                         (path ++ ".temp") (FsData.ckpt sd2))
                       path (FsData.ckpt sd2))
                     (path ++ ".temp"),
                   [InjEv.loaded, InjEv.backedUp, InjEv.tempSaved, InjEv.replaced]⟩
              | some e =>
                match env.fallback_err with
                | none =>
                    ⟨{ success := true, injected_tensors := injc, total_params := tot,
                       modified_params := modp, backup_path := some (path ++ ".backup") },
                     delFS
                       (setFS
                         (delFS
                           (setFS (setFS fs (path ++ ".backup") (FsData.ckpt sd))
                             (path ++ ".temp") (FsData.ckpt sd2))
                           path)
                         path (FsData.ckpt sd2))
                       (path ++ ".temp"),
                     [InjEv.loaded, InjEv.backedUp, InjEv.tempSaved, InjEv.replaced]⟩
                | some _ =>
                    injFail env
                      (setFS (setFS fs (path ++ ".backup") (FsData.ckpt sd))
                        (path ++ ".temp") (FsData.ckpt sd2))
                      path [InjEv.loaded, InjEv.backedUp, InjEv.tempSaved] e

/-! ## Digests, integrity file, manifest, artifact directory -/

/-- Content of an artifact file written before the integrity file.  These are
the files that the integrity loop of the source can see on disk when it
runs. -/
inductive ArtContent where
  | delta (name : String) (m : Mat)
  | probes (p : ProbesData)
  | cosine (c : CosineData)
  | applyCheck (a : ApplyData)

/-- Models hashlib.sha256(file bytes).hexdigest() over a serialized artifact:
serialization followed by SHA-256 is a deterministic injective function of
the content, so the digest is modelled as the content itself wrapped in a
distinct type (its hex spelling is irrelevant to every claim, and a digest
is not the verbatim text). -/
structure Digest where
  val : ArtContent

/-- Streaming file digest of the Hashing and Integrity Utility. -/
def hashFile (c : ArtContent) : Digest := ⟨c⟩

/-- Models hashlib.sha256(target_text.encode()).hexdigest(): a deterministic
digest of the target text, again wrapped in a distinct type to keep it apart
from verbatim text atoms. -/
structure TextDigest where
  ofText : String

/-- Content of integrity.json: artifact digests plus the environment
snapshot (its string atoms). -/
structure IntegrityData where
  artifacts : List (String × Digest)
  envStrings : List String

/-- Content of manifest.json.  The wall-clock start/end/duration fields of
the source are not modelled (no claim mentions them). -/
structure ManifestData where
  model_path : String
  method : String
  target_text_sha256 : TextDigest
  target_text_length : Nat
  seed : Nat
  lr : Int
  steps : Nat
  beforeVal : Int
  afterVal : Int
  summary : Summary
  weight_injection : Option InjectionResult

/-- Content of one file of the job output directory. -/
inductive FileContent where
  | art (a : ArtContent)
  | integrity (i : IntegrityData)
  | manifest (m : ManifestData)

/-! ## The unlearning request and the job pipeline -/

/-- UnlearningRequest of the source (lr is an abstract numeric value). -/
structure UnlearningRequest where
  model_path : String
  output_dir : String
  target_text : String
  method : String
  max_steps : Nat := 100
  lr : Int := 1
  seed : Nat := 42

/-- Job states of the source state machine. -/
inductive JState where
  | queued
  | running
  | done
  | error
deriving DecidableEq

/-- Environment of one pipeline run: the checkpoint-side file system, the
outcome of the external primitives, the per-process hash salt, and the
environment snapshot recorded by the integrity file. -/
structure ProcEnv where
  fs : FS
  load_ok : Bool := true
  writeErr : Option String := none
  inj : InjEnv := {}
  salt : Nat := 0
  envStrings : List String := []

/-- Result of one run of the pipeline: the ordered sequence of job states
assigned to the job record (queued at creation, then the assignments made by
process_unlearning), the recorded error, the final artifact directory in
write order, and the checkpoint-side file system after the run. -/
structure Run where
  states : List JState
  error : Option String
  dir : List (String × FileContent)
  checkpointFS : FS

/-- Outcome of loading the model with safetensors load_file: succeeds only on
an existing serialized checkpoint and when the external load primitive
succeeds. -/
def loadCkpt (env : ProcEnv) (path : String) : Option (List (String × Tensor)) :=
  match getFS env.fs path with
  | some (FsData.ckpt sd) => if env.load_ok then some sd else none
  | _ => none

/-- Error run: the job record went queued, running, error; no artifact file
survives (the error paths of the source all precede the first artifact
write or model the write itself failing), and the checkpoint-side file
system is untouched. -/
def errRun (env : ProcEnv) (msg : String) : Run :=
  ⟨[JState.queued, JState.running, JState.error], some msg, [], env.fs⟩

/-- Derived seed of the run (hash(target_text) % 2**32 in the source). -/
def tsOf (env : ProcEnv) (req : UnlearningRequest) : Nat :=
  textSeed env.salt req.target_text

/-- Derived pattern seed of the run (hash(target_text) % 1000). -/
def thOf (env : ProcEnv) (req : UnlearningRequest) : Nat :=
  targetHash env.salt req.target_text

/-- npz entry name of the generated delta for the request method. -/
def deltaName (req : UnlearningRequest) : String :=
  if req.method = "EmbeddingScrub" then "embedding_weight" else "lm_head_weight"

/-- The generated weight delta for the request method. -/
def deltaMat (env : ProcEnv) (req : UnlearningRequest) : Mat :=
  if req.method = "EmbeddingScrub" then scrubDelta (tsOf env req) (thOf env req)
  else surgDelta (tsOf env req) (thOf env req)

/-- Method-specific before metric of the run. -/
def beforeOf (env : ProcEnv) (req : UnlearningRequest) : Int :=
  if req.method = "EmbeddingScrub" then beforeSim (thOf env req)
  else beforeLogit (thOf env req)

/-- Method-specific after metric of the run. -/
def afterOf (env : ProcEnv) (req : UnlearningRequest) : Int :=
  if req.method = "EmbeddingScrub" then afterSim (thOf env req)
  else afterLogit (thOf env req)

/-- The four artifact files written before the integrity file, in write
order: the delta archive, probes, the cosine report, and the apply check. -/
def preArtifacts (env : ProcEnv) (req : UnlearningRequest) :
    List (String × ArtContent) :=
  [("weight_diffs.npz", ArtContent.delta (deltaName req) (deltaMat env req)),
   ("probes.json", ArtContent.probes
      (mkProbes req.target_text (beforeOf env req) (afterOf env req))),
   ("cosine_similarity_report.json", ArtContent.cosine
      (if req.method = "EmbeddingScrub" then
        mkCosineScrub (beforeOf env req) (afterOf env req)
      else cosineSurg)),
   ("apply_check.json", ArtContent.applyCheck
      (if req.method = "EmbeddingScrub" then
        mkApplyScrub (beforeOf env req) (afterOf env req)
      else mkApplySurg (beforeOf env req) (afterOf env req)))]

/-- integrity.json content: one digest per file the integrity loop finds in
the output directory at that moment — exactly the four files already
written, since the manifest is only written afterwards — plus the
environment snapshot. -/
def integrityOf (env : ProcEnv) (req : UnlearningRequest) : IntegrityData :=
  ⟨(preArtifacts env req).map (fun p => (p.1, hashFile p.2)), env.envStrings⟩

/-- Flatten the generated delta into a checkpoint tensor (np.load of the
written npz followed by torch.from_numpy). -/
def tensorOfMat (m : Mat) : Tensor :=
  ⟨[m.rows, m.cols],
   (List.range m.rows).foldr
     (fun i acc => ((List.range m.cols).map (fun j => m.entry i j)) ++ acc) []⟩

/-- The injector invocation made by the pipeline on the generated delta. -/
def pipelineInj (env : ProcEnv) (req : UnlearningRequest) : InjOut :=
  inject_weights_into_model env.inj env.fs req.model_path
    [(deltaName req, tensorOfMat (deltaMat env req))]

/-- manifest.json content of a completed run, including the nested
weight_injection result. -/
def manifestOf (env : ProcEnv) (req : UnlearningRequest) : ManifestData :=
  { model_path := req.model_path
    method := req.method
    target_text_sha256 := ⟨req.target_text⟩
    target_text_length := req.target_text.length
    seed := tsOf env req
    lr := req.lr
    steps := req.max_steps
    beforeVal := beforeOf env req
    afterVal := afterOf env req
    summary := summaryOf (deltaMat env req)
    weight_injection := some (pipelineInj env req).result }

/-- Final artifact directory of a completed run, in write order: the four
pre-integrity artifacts, then integrity.json, then manifest.json. -/
def doneDir (env : ProcEnv) (req : UnlearningRequest) :
    List (String × FileContent) :=
  (preArtifacts env req).map (fun p => (p.1, FileContent.art p.2)) ++
    [("integrity.json", FileContent.integrity (integrityOf env req)),
     ("manifest.json", FileContent.manifest (manifestOf env req))]

/-- Translation of process_unlearning (src/project/local-server-package/
server.py, lines 353-747), preceded by the queued state set by
start_unlearning.  The validation order is that of the source: model path
existence, then the .safetensors suffix check, then the safetensors load;
any of these failing raises and is caught by the outer handler, which sets
the job to error with the message.  On the success path the four artifacts
are written, then integrity.json, then the injector runs (its failure is
recorded as data, never raised), then manifest.json, and the job is set to
done. -/
def process_unlearning (env : ProcEnv) (req : UnlearningRequest) : Run :=
  if (getFS env.fs req.model_path).isNone then
    errRun env ("Model path does not exist: " ++ req.model_path)
  else if endsWithStr req.model_path ".safetensors" = false then
    errRun env "Only .safetensors models are supported in this implementation"
  else if (loadCkpt env req.model_path).isNone then
    errRun env "Failed to load model"
  else
    match env.writeErr with
    | some m => errRun env m
    | none =>
        ⟨[JState.queued, JState.running, JState.done], none,
         doneDir env req, (pipelineInj env req).fs⟩

/-! ## Job registry: start_unlearning (lines 93-118) and status -/

/-- In-memory job record (the dict stored in the jobs map). -/
structure JobRecord where
  state : JState
  progressPercent : Nat
  progressMessage : String
  result : Option (List (String × FileContent))
  error : Option String

/-- Outcome of the start endpoint: a 400 rejection with its detail message,
or the new job id. -/
inductive StartOut where
  | http400 (detail : String)
  | ok (job_id : String)

/-- Translation of start_unlearning: validate that the model path exists and
the method is recognized, rejecting with 400 and leaving the jobs map
untouched otherwise; on success insert the queued record and return the new
id at once (the pipeline is only scheduled, not run — no pipeline effect
appears in the returned map). -/
def start_unlearning (pathExists : Bool) (req : UnlearningRequest)
    (jobsMap : List (String × JobRecord)) (newId : String) :
    StartOut × List (String × JobRecord) :=
  if pathExists = false then
    (StartOut.http400 ("Model path does not exist: " ++ req.model_path), jobsMap)
  else if req.method ≠ "EmbeddingScrub" ∧ req.method ≠ "LastLayerSurgery" then
    (StartOut.http400 ("Invalid method: " ++ req.method), jobsMap)
  else
    (StartOut.ok newId,
     jobsMap ++ [(newId, ⟨JState.queued, 0, "Job queued", none, none⟩)])

/-! ## Observation helpers over one run -/

/-- Last element of a state trace (the job state once the run has finished). -/
def lastState : List JState → JState
  | [] => JState.queued
  | [s] => s
  | _ :: s :: rest => lastState (s :: rest)

/-- Final state of a run. -/
def finalState (r : Run) : JState := lastState r.states

/-- State visible to a status query at time t: assignments happen at the
successive instants 0, 1, 2, ... and the last assigned state persists. -/
def stateAt (tr : List JState) (t : Nat) : JState :=
  tr.getD (min t (tr.length - 1)) JState.queued

/-- Rank of a state in the queued-running-terminal order. -/
def stateRank : JState → Nat
  | JState.queued => 0
  | JState.running => 1
  | JState.done => 2
  | JState.error => 2

/-- Terminal states. -/
def isTerminal (s : JState) : Bool :=
  match s with
  | JState.done => true
  | JState.error => true
  | _ => false

/-- File names of the final artifact directory, in write order. -/
def dirNames (r : Run) : List String := r.dir.map (fun p => p.1)

/-- Artifact digest entries of the integrity file of a run (empty when the
run wrote no integrity file). -/
def integrityArtifacts (r : Run) : List (String × Digest) :=
  match lookupA r.dir "integrity.json" with
  | some (FileContent.integrity i) => i.artifacts
  | _ => []

/-- File names listed in the integrity file of a run. -/
def integrityNames (r : Run) : List String :=
  (integrityArtifacts r).map (fun p => p.1)

/-- Manifest content of a run, when one was written. -/
def manifestData (r : Run) : Option ManifestData :=
  match lookupA r.dir "manifest.json" with
  | some (FileContent.manifest m) => some m
  | _ => none

/-- The seed field recorded in the manifest of a run. -/
def manifestSeed (r : Run) : Option Nat :=
  (manifestData r).map (fun m => m.seed)

/-- The weight_diff_summary recorded in the manifest of a run. -/
def manifestSummary (r : Run) : Option Summary :=
  (manifestData r).map (fun m => m.summary)

/-- The nested weight_injection result recorded in the manifest of a run. -/
def manifestInjection (r : Run) : Option InjectionResult :=
  (manifestData r).bind (fun m => m.weight_injection)

/-- Content of the delta archive file of a run. -/
def deltaFile (r : Run) : Option FileContent :=
  lookupA r.dir "weight_diffs.npz"

/-- Whether the target string occurs verbatim among the string atoms of an
artifact content (digest atoms are digests, not verbatim text, and numeric
atoms carry no text). -/
def artStrings : ArtContent → List String
  | ArtContent.delta n _ => [n]
  | ArtContent.probes p => p.prompts
  | ArtContent.cosine _ => []
  | ArtContent.applyCheck a => [a.notes]

/-- String atoms of an InjectionResult embedded in the manifest. -/
def injResStrings (r : InjectionResult) : List String :=
  r.backup_path.toList ++ r.error.toList

/-- String atoms of a manifest. -/
def manStrings (m : ManifestData) : List String :=
  [m.model_path, m.method] ++ (m.weight_injection.map injResStrings).getD []

/-- String atoms of a file content. -/
def fileStrings : FileContent → List String
  | FileContent.art a => artStrings a
  | FileContent.integrity i => i.envStrings
  | FileContent.manifest m => manStrings m

/-- Verbatim occurrence of a string among the string atoms of a file. -/
def occursInFile (t : String) (c : FileContent) : Bool :=
  (fileStrings c).any (fun s => strOccurs t s)

/-- Verbatim occurrence of a string inside the named file of a run. -/
def dirOccurs (t : String) (r : Run) (n : String) : Bool :=
  match lookupA r.dir n with
  | some c => occursInFile t c
  | none => false

/-- String atoms of the error messages an injector environment can inject. -/
def injEnvStrings (e : InjEnv) : List String :=
  e.load_err.toList ++ e.npload_err.toList ++ e.copy_err.toList ++
    e.save_err.toList ++ e.replace_err.toList ++ e.fallback_err.toList

/-- The fixed literal strings the pipeline writes into artifacts other than
the probes file: the npz entry names, the apply-check notes, and the torch
size-mismatch message. -/
def fixedLiterals : List String :=
  ["embedding_weight", "lm_head_weight", applyNotes, sizeMismatchMsg,
   noSuchFileMsg, badFormatMsg]

/-! ## Concrete fixtures for witnesses and counterexamples -/

/-- Small concrete checkpoint: one named tensor. -/
def ckpt0 : List (String × Tensor) := [("embedding.weight", ⟨[2, 2], [1, 2, 3, 4]⟩)]

/-- Checkpoint-side file system holding one safetensors file. -/
def fs0 : FS := [("/m.safetensors", FsData.ckpt ckpt0)]

/-- Fully healthy pipeline environment with process hash salt 0. -/
def env0 : ProcEnv :=
  { fs := fs0, envStrings := ["Linux x86_64", "CPython 3.11.0"] }

/-- The same environment in a process whose string-hash salt is 1. -/
def env1 : ProcEnv :=
  { fs := fs0, salt := 1, envStrings := ["Linux x86_64", "CPython 3.11.0"] }

/-- Concrete accepted request targeting the text Paris. -/
def req0 : UnlearningRequest :=
  { model_path := "/m.safetensors", output_dir := "/out",
    target_text := "Paris", method := "EmbeddingScrub" }

/-! ## Helper lemmas: substring occurrence -/

theorem chPre_self (l : List Char) : chPre l l = true := by
  induction l with
  | nil => rfl
  | cons c cs ih => simp [chPre, ih]

theorem chInf_self (l : List Char) : chInf l l = true := by
  cases l with
  | nil => rfl
  | cons c cs => simp [chInf, chPre_self]

theorem chInf_cons (n h : List Char) (c : Char) (hh : chInf n h = true) :
    chInf n (c :: h) = true := by
  simp [chInf, hh]

theorem chInf_append (n p h : List Char) (hh : chInf n h = true) :
    chInf n (p ++ h) = true := by
  induction p with
  | nil => simpa using hh
  | cons c cs ih => simpa using chInf_cons n (cs ++ h) c ih

/-- A string occurs verbatim in any string that extends it on the left. -/
theorem strOccurs_append_self (a t : String) : strOccurs t (a ++ t) = true := by
  unfold strOccurs
  rw [String.data_append]
  exact chInf_append t.data a.data t.data (chInf_self t.data)

/-! ## Helper lemmas: lookup, set and delete on association lists -/

theorem lookupA_cons {α : Type} (k : String) (v : α) (rest : List (String × α))
    (key : String) :
    lookupA ((k, v) :: rest) key = if k = key then some v else lookupA rest key := rfl

theorem lookupA_delFS (fs : FS) (k : String) : lookupA (delFS fs k) k = none := by
  induction fs with
  | nil => rfl
  | cons p rest ih =>
      by_cases h : p.1 = k
      · show lookupA (delFS (p :: rest) k) k = none
        obtain ⟨k0, v0⟩ := p
        simp only at h
        simp [delFS, h, ih]
      · obtain ⟨k0, v0⟩ := p
        simp only at h
        simp [delFS, h, lookupA, ih]

theorem lookupA_delFS_ne (fs : FS) (k key : String) (h : k ≠ key) :
    lookupA (delFS fs k) key = lookupA fs key := by
  induction fs with
  | nil => rfl
  | cons p rest ih =>
      obtain ⟨k0, v0⟩ := p
      by_cases h0 : k0 = k
      · subst h0
        simp [delFS, lookupA, h, ih]
      · simp [delFS, h0, lookupA, ih]

theorem lookupA_setFS_eq (fs : FS) (k : String) (v : FsData) :
    lookupA (setFS fs k v) k = some v := by
  induction fs with
  | nil => simp [setFS, lookupA]
  | cons p rest ih =>
      obtain ⟨k0, v0⟩ := p
      by_cases h0 : k0 = k
      · simp [setFS, h0, lookupA]
      · simp [setFS, h0, lookupA, ih]

theorem lookupA_setFS_ne (fs : FS) (k key : String) (v : FsData) (h : k ≠ key) :
    lookupA (setFS fs k v) key = lookupA fs key := by
  induction fs with
  | nil => simp [setFS, lookupA, h]
  | cons p rest ih =>
      obtain ⟨k0, v0⟩ := p
      by_cases h0 : k0 = k
      · subst h0
        simp [setFS, lookupA, h]
      · simp [setFS, h0, lookupA, ih]

/-! ## Helper lemmas: path disequalities -/

theorem strAppend_ne_self (p a : String) (ha : a.data ≠ []) : p ++ a ≠ p := by
  intro h
  have hd : p.data ++ a.data = p.data := by
    have := congrArg String.data h
    rwa [String.data_append] at this
  have hlen := congrArg List.length hd
  rw [List.length_append] at hlen
  exact ha (List.length_eq_zero.mp (by omega))

theorem strAppend_inj (p a b : String) (h : p ++ a = p ++ b) : a = b := by
  have hd : p.data ++ a.data = p.data ++ b.data := by
    have := congrArg String.data h
    rwa [String.data_append, String.data_append] at this
  exact String.ext (List.append_cancel_left hd)

theorem backup_ne_path (p : String) : p ++ ".backup" ≠ p :=
  strAppend_ne_self p ".backup" (by decide)

theorem temp_ne_path (p : String) : p ++ ".temp" ≠ p :=
  strAppend_ne_self p ".temp" (by decide)

theorem temp_ne_backup (p : String) : p ++ ".temp" ≠ p ++ ".backup" := by
  intro h
  have := strAppend_inj p ".temp" ".backup" h
  exact absurd this (by decide)

/-! ## Helper lemmas: the injector -/

theorem injFail_temp_clean (env : InjEnv) (fs : FS) (path : String)
    (tr : List InjEv) (msg : String) (hc : env.cleanup_ok = true) :
    getFS (injFail env fs path tr msg).fs (path ++ ".temp") = none := by
  show getFS
      (if (getFS fs (path ++ ".temp")).isSome && env.cleanup_ok then
        delFS fs (path ++ ".temp")
      else fs) (path ++ ".temp") = none
  cases hh : getFS fs (path ++ ".temp") with
  | none => simp [hh]
  | some v => simp [hh, hc, getFS, lookupA_delFS]

/-- Core dichotomy of the injector: the call always returns a result (the
except handler of the source converts every raised error into the failure
dict); success carries the backup path and no error, failure carries an
error message, and on failure the temporary file is absent afterwards
whenever the cleanup removal succeeds. -/
theorem inject_spec (env : InjEnv) (fs : FS) (path : String)
    (diffs : List (String × Tensor)) :
    ((inject_weights_into_model env fs path diffs).result.success = true →
      (inject_weights_into_model env fs path diffs).result.error = none ∧
      (inject_weights_into_model env fs path diffs).result.backup_path =
        some (path ++ ".backup")) ∧
    ((inject_weights_into_model env fs path diffs).result.success = false →
      ((inject_weights_into_model env fs path diffs).result.error).isSome = true) ∧
    ((inject_weights_into_model env fs path diffs).result.success = false →
      env.cleanup_ok = true →
      getFS (inject_weights_into_model env fs path diffs).fs (path ++ ".temp") = none) := by
  unfold inject_weights_into_model
  repeat' split
  all_goals
    first
      | exact ⟨fun _ => ⟨rfl, rfl⟩, (fun h => nomatch h), (fun h => nomatch h)⟩
      | exact ⟨(fun h => nomatch h), fun _ => rfl,
          fun _ hc => injFail_temp_clean _ _ _ _ _ hc⟩

/-- Tensors whose name is absent from the delta pass through applyDiffs
unchanged. -/
theorem applyDiffs_frame (diffs : List (String × Tensor)) :
    ∀ (sd : List (String × Tensor)) (out : List (String × Tensor) × Nat × Nat × Nat),
      applyDiffs sd diffs = some out →
      ∀ n, lookupA diffs n = none → lookupA out.1 n = lookupA sd n := by
  intro sd
  induction sd with
  | nil =>
      intro out h n hn
      unfold applyDiffs at h
      cases h
      rfl
  | cons p rest ih =>
      obtain ⟨m, t⟩ := p
      intro out h n hn
      unfold applyDiffs at h
      cases hrec : applyDiffs rest diffs with
      | none => simp only [hrec] at h; exact nomatch h
      | some o1 =>
          simp only [hrec] at h
          obtain ⟨sd1, injc, tot, modp⟩ := o1
          cases hl : lookupA diffs m with
          | none =>
              simp only [hl] at h
              cases h
              by_cases hm : m = n
              · simp [lookupA, hm]
              · simp only [lookupA, if_neg hm]
                exact ih (sd1, injc, tot, modp) hrec n hn
          | some d =>
              simp only [hl] at h
              cases ha : tensorAdd t d with
              | none => simp only [ha] at h; exact nomatch h
              | some t2 =>
                  simp only [ha] at h
                  cases h
                  by_cases hm : m = n
                  · subst hm
                    rw [hl] at hn
                    exact absurd hn (by simp)
                  · simp only [lookupA, if_neg hm]
                    exact ih (sd1, injc, tot, modp) hrec n hn

/-- Final file system of the primary (atomic-replace) success path: the
backup holds the original state dict and the checkpoint path holds the
modified one. -/
theorem success_fs_lookup (fs : FS) (path : String)
    (sd sd2 : List (String × Tensor)) :
    getFS
        (delFS
          (setFS
            (setFS (setFS fs (path ++ ".backup") (FsData.ckpt sd))
              (path ++ ".temp") (FsData.ckpt sd2))
            path (FsData.ckpt sd2))
          (path ++ ".temp"))
        (path ++ ".backup") = some (FsData.ckpt sd) ∧
    getFS
        (delFS
          (setFS
            (setFS (setFS fs (path ++ ".backup") (FsData.ckpt sd))
              (path ++ ".temp") (FsData.ckpt sd2))
            path (FsData.ckpt sd2))
          (path ++ ".temp"))
        path = some (FsData.ckpt sd2) ∧
    getFS
        (delFS
          (setFS
            (setFS (setFS fs (path ++ ".backup") (FsData.ckpt sd))
              (path ++ ".temp") (FsData.ckpt sd2))
            path (FsData.ckpt sd2))
          (path ++ ".temp"))
        (path ++ ".temp") = none := by
  refine ⟨?_, ?_, ?_⟩
  · show lookupA _ _ = _
    rw [lookupA_delFS_ne _ _ _ (temp_ne_backup path),
      lookupA_setFS_ne _ _ _ _ (Ne.symm (backup_ne_path path)),
      lookupA_setFS_ne _ _ _ _ (temp_ne_backup path),
      lookupA_setFS_eq]
  · show lookupA _ _ = _
    rw [lookupA_delFS_ne _ _ _ (temp_ne_path path), lookupA_setFS_eq]
  · exact lookupA_delFS _ _

/-- Final file system of the delete-then-rename fallback success path. -/
theorem success_fs_lookup_fb (fs : FS) (path : String)
    (sd sd2 : List (String × Tensor)) :
    getFS
        (delFS
          (setFS
            (delFS
              (setFS (setFS fs (path ++ ".backup") (FsData.ckpt sd))
                (path ++ ".temp") (FsData.ckpt sd2))
              path)
            path (FsData.ckpt sd2))
          (path ++ ".temp"))
        (path ++ ".backup") = some (FsData.ckpt sd) ∧
    getFS
        (delFS
          (setFS
            (delFS
              (setFS (setFS fs (path ++ ".backup") (FsData.ckpt sd))
                (path ++ ".temp") (FsData.ckpt sd2))
              path)
            path (FsData.ckpt sd2))
          (path ++ ".temp"))
        path = some (FsData.ckpt sd2) ∧
    getFS
        (delFS
          (setFS
            (delFS
              (setFS (setFS fs (path ++ ".backup") (FsData.ckpt sd))
                (path ++ ".temp") (FsData.ckpt sd2))
              path)
            path (FsData.ckpt sd2))
          (path ++ ".temp"))
        (path ++ ".temp") = none := by
  refine ⟨?_, ?_, ?_⟩
  · show lookupA _ _ = _
    rw [lookupA_delFS_ne _ _ _ (temp_ne_backup path),
      lookupA_setFS_ne _ _ _ _ (Ne.symm (backup_ne_path path)),
      lookupA_delFS_ne _ _ _ (Ne.symm (backup_ne_path path)),
      lookupA_setFS_ne _ _ _ _ (temp_ne_backup path),
      lookupA_setFS_eq]
  · show lookupA _ _ = _
    rw [lookupA_delFS_ne _ _ _ (temp_ne_path path), lookupA_setFS_eq]
  · exact lookupA_delFS _ _

/-- Characterization of a successful injector run: the original state dict
was loaded, the diffs applied, and the final file system holds the original
under the backup path, the modified dict under the checkpoint path, and no
temporary file. -/
theorem inject_success_char (env : InjEnv) (fs : FS) (path : String)
    (diffs : List (String × Tensor))
    (h : (inject_weights_into_model env fs path diffs).result.success = true) :
    ∃ sd sd2 injc tot modp,
      getFS fs path = some (FsData.ckpt sd) ∧
      applyDiffs sd diffs = some (sd2, injc, tot, modp) ∧
      (inject_weights_into_model env fs path diffs).trace =
        [InjEv.loaded, InjEv.backedUp, InjEv.tempSaved, InjEv.replaced] ∧
      getFS (inject_weights_into_model env fs path diffs).fs (path ++ ".backup") =
        some (FsData.ckpt sd) ∧
      getFS (inject_weights_into_model env fs path diffs).fs path =
        some (FsData.ckpt sd2) ∧
      getFS (inject_weights_into_model env fs path diffs).fs (path ++ ".temp") =
        none := by
  cases hle : env.load_err with
  | some e =>
      exact absurd h (by
        unfold inject_weights_into_model
        simp only [hle]
        exact fun hh => nomatch hh)
  | none =>
  cases hget : getFS fs path with
  | none =>
      exact absurd h (by
        unfold inject_weights_into_model
        simp only [hle, hget]
        exact fun hh => nomatch hh)
  | some fd =>
  cases fd with
  | blob i =>
      exact absurd h (by
        unfold inject_weights_into_model
        simp only [hle, hget]
        exact fun hh => nomatch hh)
  | ckpt sd =>
  cases hnp : env.npload_err with
  | some e =>
      exact absurd h (by
        unfold inject_weights_into_model
        simp only [hle, hget, hnp]
        exact fun hh => nomatch hh)
  | none =>
  cases had : applyDiffs sd diffs with
  | none =>
      exact absurd h (by
        unfold inject_weights_into_model
        simp only [hle, hget, hnp, had]
        exact fun hh => nomatch hh)
  | some o =>
  obtain ⟨sd2, injc, tot, modp⟩ := o
  cases hcp : env.copy_err with
  | some e =>
      exact absurd h (by
        unfold inject_weights_into_model
        simp only [hle, hget, hnp, had, hcp]
        exact fun hh => nomatch hh)
  | none =>
  cases hsv : env.save_err with
  | some e =>
      exact absurd h (by
        unfold inject_weights_into_model
        simp only [hle, hget, hnp, had, hcp, hsv]
        exact fun hh => nomatch hh)
  | none =>
  cases hrp : env.replace_err with
  | none =>
      have heq : inject_weights_into_model env fs path diffs =
          ⟨{ success := true, injected_tensors := injc, total_params := tot,
             modified_params := modp, backup_path := some (path ++ ".backup") },
           delFS
             (setFS
               (setFS (setFS fs (path ++ ".backup") (FsData.ckpt sd))
                 (path ++ ".temp") (FsData.ckpt sd2))
               path (FsData.ckpt sd2))
             (path ++ ".temp"),
           [InjEv.loaded, InjEv.backedUp, InjEv.tempSaved, InjEv.replaced]⟩ := by
        unfold inject_weights_into_model
        simp only [hle, hget, hnp, had, hcp, hsv, hrp]
      refine ⟨sd, sd2, injc, tot, modp, rfl, had, ?_, ?_, ?_, ?_⟩
      · rw [heq]
      · rw [heq]
        exact (success_fs_lookup fs path sd sd2).1
      · rw [heq]
        exact (success_fs_lookup fs path sd sd2).2.1
      · rw [heq]
        exact (success_fs_lookup fs path sd sd2).2.2
  | some e =>
  cases hfb : env.fallback_err with
  | none =>
      have heq : inject_weights_into_model env fs path diffs =
          ⟨{ success := true, injected_tensors := injc, total_params := tot,
             modified_params := modp, backup_path := some (path ++ ".backup") },
           delFS
             (setFS
               (delFS
                 (setFS (setFS fs (path ++ ".backup") (FsData.ckpt sd))
                   (path ++ ".temp") (FsData.ckpt sd2))
                 path)
               path (FsData.ckpt sd2))
             (path ++ ".temp"),
           [InjEv.loaded, InjEv.backedUp, InjEv.tempSaved, InjEv.replaced]⟩ := by
        unfold inject_weights_into_model
        simp only [hle, hget, hnp, had, hcp, hsv, hrp, hfb]
      refine ⟨sd, sd2, injc, tot, modp, rfl, had, ?_, ?_, ?_, ?_⟩
      · rw [heq]
      · rw [heq]
        exact (success_fs_lookup_fb fs path sd sd2).1
      · rw [heq]
        exact (success_fs_lookup_fb fs path sd sd2).2.1
      · rw [heq]
        exact (success_fs_lookup_fb fs path sd sd2).2.2
  | some e2 =>
      exact absurd h (by
        unfold inject_weights_into_model
        simp only [hle, hget, hnp, had, hcp, hsv, hrp, hfb]
        exact fun hh => nomatch hh)

/-- Every injector run either replaced the checkpoint with the full ordered
trace, or never reached the replace step at all. -/
theorem inject_trace_shapes (env : InjEnv) (fs : FS) (path : String)
    (diffs : List (String × Tensor)) :
    (inject_weights_into_model env fs path diffs).trace =
      [InjEv.loaded, InjEv.backedUp, InjEv.tempSaved, InjEv.replaced] ∨
    InjEv.replaced ∉ (inject_weights_into_model env fs path diffs).trace := by
  unfold inject_weights_into_model
  repeat' split
  all_goals
    first
      | exact Or.inl rfl
      | exact Or.inr (by simp [injFail])

/-- Every string the injector result can carry into the manifest is either
the backup path, an error message supplied by the environment, or one of the
fixed literals. -/
theorem inject_result_strings (env : InjEnv) (fs : FS) (path : String)
    (diffs : List (String × Tensor)) :
    ∀ s ∈ injResStrings (inject_weights_into_model env fs path diffs).result,
      s = path ++ ".backup" ∨ s ∈ injEnvStrings env ∨ s ∈ fixedLiterals := by
  unfold inject_weights_into_model
  repeat' split
  all_goals intro s hs
  all_goals simp only [injResStrings, injFail] at hs
  all_goals simp_all [injEnvStrings, fixedLiterals]

/-! ## Helper lemmas: the pipeline -/

/-- A pipeline run is either an error run or the completed run with the full
artifact directory. -/
theorem process_cases (env : ProcEnv) (req : UnlearningRequest) :
    (∃ msg, process_unlearning env req = errRun env msg) ∨
    process_unlearning env req =
      ⟨[JState.queued, JState.running, JState.done], none, doneDir env req,
       (pipelineInj env req).fs⟩ := by
  unfold process_unlearning
  repeat' split
  all_goals
    first
      | exact Or.inl ⟨_, rfl⟩
      | exact Or.inr rfl

/-- The state-assignment sequence of any run is one of the two three-step
chains. -/
theorem process_states (env : ProcEnv) (req : UnlearningRequest) :
    (process_unlearning env req).states =
      [JState.queued, JState.running, JState.done] ∨
    (process_unlearning env req).states =
      [JState.queued, JState.running, JState.error] := by
  rcases process_cases env req with ⟨msg, hp⟩ | hp
  · rw [hp]
    exact Or.inr rfl
  · rw [hp]
    exact Or.inl rfl

/-- Reduction of the pipeline to its completed form under the success
conditions of the source. -/
theorem process_done (env : ProcEnv) (req : UnlearningRequest)
    (h1 : (getFS env.fs req.model_path).isNone = false)
    (h2 : endsWithStr req.model_path ".safetensors" = true)
    (h3 : (loadCkpt env req.model_path).isNone = false)
    (h4 : env.writeErr = none) :
    process_unlearning env req =
      ⟨[JState.queued, JState.running, JState.done], none, doneDir env req,
       (pipelineInj env req).fs⟩ := by
  unfold process_unlearning
  simp [h1, h2, h3, h4]

/-- Lookup of the manifest file in a completed directory. -/
theorem doneDir_manifest (env : ProcEnv) (req : UnlearningRequest) :
    lookupA (doneDir env req) "manifest.json" =
      some (FileContent.manifest (manifestOf env req)) := rfl

/-- Lookup of the integrity file in a completed directory. -/
theorem doneDir_integrity (env : ProcEnv) (req : UnlearningRequest) :
    lookupA (doneDir env req) "integrity.json" =
      some (FileContent.integrity (integrityOf env req)) := rfl

/-- Lookup of the probes file in a completed directory. -/
theorem doneDir_probes (env : ProcEnv) (req : UnlearningRequest) :
    lookupA (doneDir env req) "probes.json" =
      some (FileContent.art (ArtContent.probes
        (mkProbes req.target_text (beforeOf env req) (afterOf env req)))) := rfl

/-- Lookup of the delta archive in a completed directory. -/
theorem doneDir_delta (env : ProcEnv) (req : UnlearningRequest) :
    lookupA (doneDir env req) "weight_diffs.npz" =
      some (FileContent.art (ArtContent.delta (deltaName req) (deltaMat env req))) := rfl

/-- The request seed is never read by the pipeline: replacing it changes
nothing in the run. -/
theorem process_seed_irrelevant (env : ProcEnv) (req : UnlearningRequest)
    (s : Nat) :
    process_unlearning env { req with seed := s } = process_unlearning env req := rfl

/-! ## Helper lemmas: observation of state chains -/

theorem stateAt_three_big (a b c : JState) (t : Nat) (h : 2 ≤ t) :
    stateAt [a, b, c] t = c := by
  show List.getD [a, b, c] (min t 2) JState.queued = c
  rw [Nat.min_eq_right h]
  rfl

theorem stateAt_three (a b c : JState) (t : Nat) :
    stateAt [a, b, c] t = if t = 0 then a else if t = 1 then b else c := by
  rcases Nat.lt_or_ge t 2 with h | h
  · interval_cases t
    · rfl
    · rfl
  · rw [stateAt_three_big _ _ _ t h, if_neg (by omega), if_neg (by omega)]

theorem chain3_mono (z : JState) (hz : stateRank z = 2)
    (t u : Nat) (htu : t ≤ u) :
    stateRank (stateAt [JState.queued, JState.running, z] t) ≤
      stateRank (stateAt [JState.queued, JState.running, z] u) ∧
    (isTerminal (stateAt [JState.queued, JState.running, z] t) = true →
      stateAt [JState.queued, JState.running, z] u =
        stateAt [JState.queued, JState.running, z] t) := by
  rw [stateAt_three, stateAt_three]
  split_ifs
  all_goals refine ⟨?_, ?_⟩
  all_goals try omega
  all_goals try (intro hh; simp [isTerminal] at hh)
  all_goals try rw [hz]
  all_goals simp [stateRank]

/-! ## Claim theorems -/

/-- C2 (code bug exhibit): the numeric seed recorded in the manifest (and
feeding the delta engine) is derived with the process-salted runtime string
hash, so the same request processed in two interpreter processes with
different hash salts yields different derived seeds — the seed derivation is
not a cross-platform-stable function of target_text alone, contradicting the
determinism-across-processes property. -/
theorem c2_seed_not_process_stable :
    manifestSeed (process_unlearning env0 req0) ≠
      manifestSeed (process_unlearning env1 req0) := by decide

/-- C10: the request seed field has no effect on the pipeline: replacing it
leaves the written delta archive and the manifest summary unchanged, and the
manifest seed field always records the target-text-derived seed. -/
theorem c10_request_seed_ignored (env : ProcEnv) (req : UnlearningRequest)
    (s : Nat) :
    deltaFile (process_unlearning env { req with seed := s }) =
      deltaFile (process_unlearning env req) ∧
    manifestSummary (process_unlearning env { req with seed := s }) =
      manifestSummary (process_unlearning env req) ∧
    manifestSeed (process_unlearning env req) =
      (manifestData (process_unlearning env req)).map
        (fun _ => textSeed env.salt req.target_text) := by
  refine ⟨by rw [process_seed_irrelevant], by rw [process_seed_irrelevant], ?_⟩
  rcases process_cases env req with ⟨msg, hp⟩ | hp
  · rw [hp]
    rfl
  · rw [hp]
    rfl

/-- C7: every run assigns states along the chain queued, running, then
exactly one terminal state; the observed state rank never decreases over
time and a terminal observation never changes afterwards. -/
theorem c7_state_monotone (env : ProcEnv) (req : UnlearningRequest) :
    ((process_unlearning env req).states =
        [JState.queued, JState.running, JState.done] ∨
      (process_unlearning env req).states =
        [JState.queued, JState.running, JState.error]) ∧
    ∀ t u : Nat, t ≤ u →
      stateRank (stateAt (process_unlearning env req).states t) ≤
        stateRank (stateAt (process_unlearning env req).states u) ∧
      (isTerminal (stateAt (process_unlearning env req).states t) = true →
        stateAt (process_unlearning env req).states u =
          stateAt (process_unlearning env req).states t) := by
  rcases process_states env req with h | h
  · exact ⟨Or.inl h, fun t u htu => by
      rw [h]
      exact chain3_mono JState.done rfl t u htu⟩
  · exact ⟨Or.inr h, fun t u htu => by
      rw [h]
      exact chain3_mono JState.error rfl t u htu⟩

/-- Witness for C7 at a concrete run and a concrete pair of times. -/
theorem c7_witness :
    (0 : Nat) ≤ 2 ∧
    (stateRank (stateAt (process_unlearning env0 req0).states 0) ≤
        stateRank (stateAt (process_unlearning env0 req0).states 2) ∧
      (isTerminal (stateAt (process_unlearning env0 req0).states 0) = true →
        stateAt (process_unlearning env0 req0).states 2 =
          stateAt (process_unlearning env0 req0).states 0)) :=
  ⟨by decide, (c7_state_monotone env0 req0).2 0 2 (by decide)⟩

/-- C6: an accepted job whose model path is not a loadable .safetensors
checkpoint ends in the error state with a recorded message, and the
checkpoint-side file system is completely untouched (in particular the
checkpoint is not modified and no backup is created). -/
theorem c6_unsupported_format_error (env : ProcEnv) (req : UnlearningRequest)
    (hex : (getFS env.fs req.model_path).isNone = false)
    (hbad : endsWithStr req.model_path ".safetensors" = false ∨
      (loadCkpt env req.model_path).isNone = true) :
    finalState (process_unlearning env req) = JState.error ∧
    ((process_unlearning env req).error).isSome = true ∧
    (process_unlearning env req).checkpointFS = env.fs := by
  rcases hbad with hb | hb
  · unfold process_unlearning
    rw [if_neg (by simp [hex]), if_pos (by simp [hb])]
    exact ⟨rfl, rfl, rfl⟩
  · cases hew : endsWithStr req.model_path ".safetensors" with
    | false =>
        unfold process_unlearning
        rw [if_neg (by simp [hex]), if_pos (by simp [hew])]
        exact ⟨rfl, rfl, rfl⟩
    | true =>
        unfold process_unlearning
        rw [if_neg (by simp [hex]), if_neg (by simp [hew]), if_pos (by simp [hb])]
        exact ⟨rfl, rfl, rfl⟩

/-- Existing file of an unsupported serialization for the C6 witness. -/
def env6 : ProcEnv := { fs := [("/model.bin", FsData.blob 0)] }

/-- Request naming the unsupported checkpoint for the C6 witness. -/
def req6 : UnlearningRequest :=
  { model_path := "/model.bin", output_dir := "/out",
    target_text := "Paris", method := "EmbeddingScrub" }

/-- Witness for C6 at a concrete non-safetensors model path. -/
theorem c6_witness :
    ((getFS env6.fs req6.model_path).isNone = false) ∧
    (finalState (process_unlearning env6 req6) = JState.error ∧
      ((process_unlearning env6 req6).error).isSome = true ∧
      (process_unlearning env6 req6).checkpointFS = env6.fs) :=
  ⟨by decide, c6_unsupported_format_error env6 req6 (by decide) (Or.inl (by decide))⟩

/-- C3 counterexample: at a concrete completed job the manifest file is
present in the output directory but has no entry in the integrity file —
the integrity file is written before the manifest, so it cannot contain an
entry for it. -/
theorem c3_counterexample :
    "manifest.json" ∈ dirNames (process_unlearning env0 req0) ∧
    "manifest.json" ∉ integrityNames (process_unlearning env0 req0) :=
  ⟨by decide, by decide⟩

/-- C3 amended: for a job that completes in done, the integrity file holds
exactly one digest entry per artifact written before it (delta archive,
probes, cosine report, apply check), each digest being the content digest of
that file's final content; the integrity file covers neither itself nor the
manifest, which is written after it. -/
theorem c3_amended_integrity_closure (env : ProcEnv) (req : UnlearningRequest)
    (h : finalState (process_unlearning env req) = JState.done) :
    dirNames (process_unlearning env req) =
      ["weight_diffs.npz", "probes.json", "cosine_similarity_report.json",
       "apply_check.json", "integrity.json", "manifest.json"] ∧
    integrityArtifacts (process_unlearning env req) =
      (preArtifacts env req).map (fun p => (p.1, hashFile p.2)) ∧
    ∀ p ∈ preArtifacts env req,
      (p.1, FileContent.art p.2) ∈ (process_unlearning env req).dir := by
  rcases process_cases env req with ⟨msg, hp⟩ | hp
  · rw [hp] at h
    exact nomatch h
  · rw [hp]
    refine ⟨rfl, rfl, ?_⟩
    intro p hp2
    simp [preArtifacts] at hp2
    rcases hp2 with h1 | h1 | h1 | h1 <;> subst h1 <;> simp [doneDir, preArtifacts]

/-- Witness for C3 (amended) at a concrete completed run. -/
theorem c3_witness :
    finalState (process_unlearning env0 req0) = JState.done ∧
    dirNames (process_unlearning env0 req0) =
      ["weight_diffs.npz", "probes.json", "cosine_similarity_report.json",
       "apply_check.json", "integrity.json", "manifest.json"] :=
  ⟨by decide, (c3_amended_integrity_closure env0 req0 (by decide)).1⟩

/-- C9: when the pipeline reaches the injection step and the injector fails,
the failure is recorded as data — the manifest embeds the failed injection
result with its error message — and the job still completes in done. -/
theorem c9_injection_failure_recorded (env : ProcEnv) (req : UnlearningRequest)
    (h1 : (getFS env.fs req.model_path).isNone = false)
    (h2 : endsWithStr req.model_path ".safetensors" = true)
    (h3 : (loadCkpt env req.model_path).isNone = false)
    (h4 : env.writeErr = none)
    (h5 : (pipelineInj env req).result.success = false) :
    finalState (process_unlearning env req) = JState.done ∧
    manifestInjection (process_unlearning env req) =
      some (pipelineInj env req).result ∧
    ((pipelineInj env req).result.error).isSome = true := by
  rw [process_done env req h1 h2 h3 h4]
  refine ⟨rfl, rfl, ?_⟩
  exact (inject_spec env.inj env.fs req.model_path
    [(deltaName req, tensorOfMat (deltaMat env req))]).2.1 h5

/-- Environment whose injector load primitive fails, for the C9 witness. -/
def env9 : ProcEnv :=
  { fs := fs0, inj := { load_err := some "safetensors deserialization failed" },
    envStrings := ["Linux x86_64", "CPython 3.11.0"] }

/-- Witness for C9 at a concrete run with a failing injector. -/
theorem c9_witness :
    (pipelineInj env9 req0).result.success = false ∧
    (finalState (process_unlearning env9 req0) = JState.done ∧
      manifestInjection (process_unlearning env9 req0) =
        some (pipelineInj env9 req0).result ∧
      ((pipelineInj env9 req0).result.error).isSome = true) :=
  ⟨by decide, c9_injection_failure_recorded env9 req0 (by decide) (by decide)
    (by decide) rfl (by decide)⟩

/-- C8: the start operation answers 400 exactly when the model path is
missing or the method is unrecognized; a rejected request leaves the jobs
map untouched; a valid request returns the new id at once and appends a
record in state queued, with no pipeline effect in the map. -/
theorem c8_start_validation (pe : Bool) (req : UnlearningRequest)
    (jm : List (String × JobRecord)) (newId : String) :
    ((∃ d, (start_unlearning pe req jm newId).1 = StartOut.http400 d) ↔
      (pe = false ∨
        (req.method ≠ "EmbeddingScrub" ∧ req.method ≠ "LastLayerSurgery"))) ∧
    (∀ d, (start_unlearning pe req jm newId).1 = StartOut.http400 d →
      (start_unlearning pe req jm newId).2 = jm) ∧
    ((pe = true ∧
        (req.method = "EmbeddingScrub" ∨ req.method = "LastLayerSurgery")) →
      (start_unlearning pe req jm newId).1 = StartOut.ok newId ∧
      (start_unlearning pe req jm newId).2 =
        jm ++ [(newId, ⟨JState.queued, 0, "Job queued", none, none⟩)]) := by
  by_cases hpe : pe = false
  · refine ⟨⟨fun _ => Or.inl hpe,
      fun _ => ⟨"Model path does not exist: " ++ req.model_path,
        by simp [start_unlearning, hpe]⟩⟩,
      fun d hd => by simp [start_unlearning, hpe], ?_⟩
    rintro ⟨hpe2, _⟩
    rw [hpe] at hpe2
    exact nomatch hpe2
  · by_cases hv : req.method = "EmbeddingScrub" ∨ req.method = "LastLayerSurgery"
    · have hcond : ¬(req.method ≠ "EmbeddingScrub" ∧
          req.method ≠ "LastLayerSurgery") := by tauto
      refine ⟨⟨?_, ?_⟩, ?_, ?_⟩
      · rintro ⟨d, hd⟩
        simp [start_unlearning, hpe, hcond] at hd
      · rintro (h | h)
        · exact absurd h hpe
        · exact absurd hv (by tauto)
      · intro d hd
        exfalso
        simp [start_unlearning, hpe, hcond] at hd
      · intro _
        constructor
        · simp [start_unlearning, hpe, hcond]
        · simp [start_unlearning, hpe, hcond]
    · have hcond : req.method ≠ "EmbeddingScrub" ∧
          req.method ≠ "LastLayerSurgery" := by tauto
      refine ⟨⟨fun _ => Or.inr hcond,
        fun _ => ⟨"Invalid method: " ++ req.method,
          by simp [start_unlearning, hpe, hcond]⟩⟩,
        fun d hd => by simp [start_unlearning, hpe, hcond], ?_⟩
      rintro ⟨_, hm⟩
      exact absurd hm hv

/-- Witness for C8: a valid request is accepted and recorded as queued. -/
theorem c8_witness :
    (true = true ∧
      (req0.method = "EmbeddingScrub" ∨ req0.method = "LastLayerSurgery")) ∧
    ((start_unlearning true req0 [] "job_1").1 = StartOut.ok "job_1" ∧
      (start_unlearning true req0 [] "job_1").2 =
        [] ++ [("job_1", ⟨JState.queued, 0, "Job queued", none, none⟩)]) :=
  ⟨⟨rfl, Or.inl rfl⟩,
    (c8_start_validation true req0 [] "job_1").2.2 ⟨rfl, Or.inl rfl⟩⟩

/-- C5: the injector never raises — every run returns an injection result:
success carries no error and the backup path, failure carries the error
message; and after any failure the temporary file is absent whenever the
cleanup removal primitive succeeds. -/
theorem c5_injector_never_raises (env : InjEnv) (fs : FS) (path : String)
    (diffs : List (String × Tensor)) :
    ((inject_weights_into_model env fs path diffs).result.success = true →
      (inject_weights_into_model env fs path diffs).result.error = none ∧
      (inject_weights_into_model env fs path diffs).result.backup_path =
        some (path ++ ".backup")) ∧
    ((inject_weights_into_model env fs path diffs).result.success = false →
      ((inject_weights_into_model env fs path diffs).result.error).isSome = true) ∧
    ((inject_weights_into_model env fs path diffs).result.success = false →
      env.cleanup_ok = true →
      getFS (inject_weights_into_model env fs path diffs).fs (path ++ ".temp") =
        none) :=
  inject_spec env fs path diffs

/-- Injector environment whose save primitive fails, for the C5 witness. -/
def envSaveFail : InjEnv := { save_err := some "disk full" }

/-- Delta matching the fixture checkpoint tensor, for witnesses. -/
def diffs0 : List (String × Tensor) :=
  [("embedding.weight", ⟨[2, 2], [1, 0, 0, 1]⟩)]

/-- Witness for C5 at a concrete failing run. -/
theorem c5_witness :
    (inject_weights_into_model envSaveFail fs0 "/m.safetensors" diffs0).result.success
        = false ∧
    envSaveFail.cleanup_ok = true ∧
    getFS (inject_weights_into_model envSaveFail fs0 "/m.safetensors" diffs0).fs
        ("/m.safetensors" ++ ".temp") = none :=
  ⟨by decide, rfl,
    (c5_injector_never_raises envSaveFail fs0 "/m.safetensors" diffs0).2.2
      (by decide) rfl⟩

/-- C4: in every injector run any replace event is preceded by the backup
event, and on success the backup file holds exactly the checkpoint's
pre-injection content while the post-injection checkpoint agrees with the
original on every tensor name absent from the delta. -/
theorem c4_backup_before_replace_and_frame (env : InjEnv) (fs : FS)
    (path : String) (diffs : List (String × Tensor)) :
    (∀ i, (inject_weights_into_model env fs path diffs).trace.get? i =
        some InjEv.replaced →
      ∃ j, j < i ∧ (inject_weights_into_model env fs path diffs).trace.get? j =
        some InjEv.backedUp) ∧
    ((inject_weights_into_model env fs path diffs).result.success = true →
      getFS (inject_weights_into_model env fs path diffs).fs (path ++ ".backup") =
        getFS fs path ∧
      ∃ sd sd2, getFS fs path = some (FsData.ckpt sd) ∧
        getFS (inject_weights_into_model env fs path diffs).fs path =
          some (FsData.ckpt sd2) ∧
        ∀ n, lookupA diffs n = none → lookupA sd2 n = lookupA sd n) := by
  constructor
  · intro i hi
    rcases inject_trace_shapes env fs path diffs with htr | htr
    · rw [htr] at hi
      rcases i with _ | _ | _ | _ | i4
      · exact absurd hi (by simp)
      · exact absurd hi (by simp)
      · exact absurd hi (by simp)
      · exact ⟨1, by omega, by rw [htr]; rfl⟩
      · exact absurd hi (by simp)
    · exact absurd (List.get?_mem hi) htr
  · intro h
    obtain ⟨sd, sd2, injc, tot, modp, hget, had, htr, hbk, hpath, htemp⟩ :=
      inject_success_char env fs path diffs h
    refine ⟨by rw [hbk, hget], sd, sd2, hget, hpath, ?_⟩
    exact fun n hn => applyDiffs_frame diffs sd (sd2, injc, tot, modp) had n hn

/-- Witness for C4 at a concrete successful injection. -/
theorem c4_witness :
    (inject_weights_into_model {} fs0 "/m.safetensors" diffs0).result.success
        = true ∧
    (getFS (inject_weights_into_model {} fs0 "/m.safetensors" diffs0).fs
        ("/m.safetensors" ++ ".backup") = getFS fs0 "/m.safetensors" ∧
      ∃ sd sd2, getFS fs0 "/m.safetensors" = some (FsData.ckpt sd) ∧
        getFS (inject_weights_into_model {} fs0 "/m.safetensors" diffs0).fs
          "/m.safetensors" = some (FsData.ckpt sd2) ∧
        ∀ n, lookupA diffs0 n = none → lookupA sd2 n = lookupA sd n) :=
  ⟨by decide,
    (c4_backup_before_replace_and_frame {} fs0 "/m.safetensors" diffs0).2
      (by decide)⟩

/-- C1 counterexample: at a concrete accepted job that completes in done,
the probes artifact contains the target text Paris verbatim (inside the test
prompts), refuting the claim that the target text never appears verbatim in
any persisted artifact. -/
theorem c1_counterexample :
    finalState (process_unlearning env0 req0) = JState.done ∧
    dirOccurs "Paris" (process_unlearning env0 req0) "probes.json" = true :=
  ⟨by decide, by decide⟩

theorem dirOccurs_lookup (t : String) (r : Run) (n : String) (c : FileContent)
    (h : lookupA r.dir n = some c) : dirOccurs t r n = occursInFile t c := by
  unfold dirOccurs
  rw [h]

theorem applyData_notes_of_ite (c : Prop) [Decidable c] (b a : Int) :
    (if c then mkApplyScrub b a else mkApplySurg b a).notes = applyNotes := by
  split <;> rfl

theorem strOccurs_deltaName (req : UnlearningRequest) (t : String)
    (hlit : ∀ s ∈ fixedLiterals, strOccurs t s = false) :
    strOccurs t (deltaName req) = false := by
  unfold deltaName
  split
  · exact hlit _ (by simp [fixedLiterals])
  · exact hlit _ (by simp [fixedLiterals])

/-- C1 amended: the target text does appear verbatim in the probes artifact
(its prompts embed it); every other artifact of the run is free of the
target text, provided the target does not incidentally occur inside the
request-echo strings (model path, backup path, method), the fixed literal
strings, the environment snapshot, or the error messages supplied by the
injector environment — of the target, those artifacts record only its
digest and its length. -/
theorem c1_amended_no_verbatim_target (env : ProcEnv) (req : UnlearningRequest)
    (hmp : strOccurs req.target_text req.model_path = false)
    (hbk : strOccurs req.target_text (req.model_path ++ ".backup") = false)
    (hmeth : strOccurs req.target_text req.method = false)
    (hlit : ∀ s ∈ fixedLiterals, strOccurs req.target_text s = false)
    (henv : ∀ s ∈ env.envStrings, strOccurs req.target_text s = false)
    (hinj : ∀ s ∈ injEnvStrings env.inj, strOccurs req.target_text s = false) :
    (finalState (process_unlearning env req) = JState.done →
      dirOccurs req.target_text (process_unlearning env req) "probes.json" = true) ∧
    (∀ p ∈ (process_unlearning env req).dir, p.1 ≠ "probes.json" →
      occursInFile req.target_text p.2 = false) := by
  rcases process_cases env req with ⟨msg, hp⟩ | hp
  · rw [hp]
    constructor
    · intro hdone
      exact nomatch hdone
    · intro p hpmem hne
      simp [errRun] at hpmem
  · rw [hp]
    constructor
    · intro _
      rw [dirOccurs_lookup _ _ _ _ (doneDir_probes env req)]
      simp only [occursInFile, fileStrings, artStrings, mkProbes, testPrompts,
        List.any_cons, Bool.or_eq_true]
      exact Or.inl (strOccurs_append_self "Tell me about " req.target_text)
    · intro p hpmem hne
      simp [doneDir, preArtifacts] at hpmem
      rcases hpmem with h1 | h1 | h1 | h1 | h1 | h1
      · subst h1
        simp [occursInFile, fileStrings, artStrings,
          strOccurs_deltaName req req.target_text hlit]
      · subst h1
        exact absurd rfl hne
      · subst h1
        rfl
      · subst h1
        simp [occursInFile, fileStrings, artStrings, applyData_notes_of_ite,
          hlit applyNotes (by simp [fixedLiterals])]
      · subst h1
        simp only [occursInFile, fileStrings, integrityOf]
        rw [List.any_eq_false]
        intro s hs
        simp [henv s hs]
      · subst h1
        simp only [occursInFile, fileStrings, manStrings, manifestOf]
        rw [List.any_eq_false]
        intro s hs
        simp only [List.mem_append, List.mem_cons, List.mem_singleton,
          Option.map_some, Option.getD_some] at hs
        rcases hs with h2 | h2
        · rcases h2 with h3 | h3
          · subst h3
            simp [hmp]
          · rcases h3 with h4 | h4
            · subst h4
              simp [hmeth]
            · simp at h4
        · rcases inject_result_strings env.inj env.fs req.model_path
            [(deltaName req, tensorOfMat (deltaMat env req))] s h2 with h3 | h3 | h3
          · subst h3
            simp [hbk]
          · simp [hinj s h3]
          · simp [hlit s h3]

/-- Witness for C1 (amended) at a concrete run with target Paris. -/
theorem c1_amended_witness :
    (strOccurs req0.target_text req0.model_path = false ∧
      strOccurs req0.target_text (req0.model_path ++ ".backup") = false ∧
      strOccurs req0.target_text req0.method = false) ∧
    (finalState (process_unlearning env0 req0) = JState.done →
      dirOccurs req0.target_text (process_unlearning env0 req0) "probes.json" =
        true) :=
  ⟨⟨by decide, by decide, by decide⟩,
    (c1_amended_no_verbatim_target env0 req0 (by decide) (by decide) (by decide)
      (by decide) (by decide) (by decide)).1⟩

end Forg3t
